import Mathlib

/-!
Verification of the MueLu matvec kernel driver
(packages/muelu/test/scaling/MatvecKernelDriver.cpp).

The driver benchmarks distributed sparse matrix-vector products across several
backend kernels and predicts lower bounds on SpMV time from empirically built
performance-model tables.  This file gives a shallow embedding of the driver's
arithmetic and control flow and proves properties of it.

The driver is instantiated at Scalar = double, LocalOrdinal = int and the
row-pointer type hardwired to size_t (`using rowptr_type = size_t;`), so
sizeof(SC) = 8, sizeof(LO) = 4, sizeof(rowptr_type) = 8.

The MueLu::PerfModels lookup tables (stream, latency-corrected stream,
pingpong, halopong, launch latency) are built from machine measurements; they
enter the embedding as abstract functions collected in `PerfTables`.  All the
properties below are about how the driver combines those lookups, which is code
of MatvecKernelDriver.cpp itself.  Double arithmetic is modelled exactly over ℚ;
C++ `int` narrowing is modelled by an explicit 32-bit two's-complement wrap.

Unless stated otherwise the model follows the single-process path: every
`if (nproc > 1)` reduce-and-average block in `report_performance_models` is an
identity on one process.
-/

namespace MatvecDriver

/-- sizeof(SC) for Scalar = double. -/
def sizeofSC : ℕ := 8

/-- sizeof(LO) for LocalOrdinal = int. -/
def sizeofLO : ℕ := 4

/-- sizeof(rowptr_type); `report_performance_models` hardwires rowptr_type = size_t. -/
def sizeofRowptr : ℕ := 8

/-- `const double GB = 1024.0 * 1024.0 * 1024.0;` (exact in double). -/
def GB : ℚ := 1024 * 1024 * 1024

/-- `convert_time_to_bandwidth_gbs(time, num_calls, memory_per_call_bytes)` from the
driver: `memory_per_call_bytes / GB / (time / num_calls)`. -/
def convert_time_to_bandwidth_gbs (time : ℚ) (num_calls : ℚ) (memory_per_call_bytes : ℚ) : ℚ :=
  memory_per_call_bytes / GB / (time / num_calls)

/-- Wrap an integer into a 32-bit signed `int` (two's complement), modelling C++
narrowing such as `int size_in_bytes = SPMV_object_size[i] * SPMV_num_objects[i];`. -/
def wrap32 (x : ℤ) : ℤ :=
  let r := x % 4294967296
  if r < 2147483648 then r else r - 4294967296

/-- The MueLu::PerfModels lookup tables, abstracted: their values come from machine
measurements, so the embedding treats them as arbitrary functions.  Integer-size
lookups receive the (possibly wrapped) C++ `int`/`size_t` argument; the halopong
lookup receives a `double`. -/
structure PerfTables where
  latency_corrected_stream_vector_lookup : ℤ → ℚ
  stream_vector_lookup : ℤ → ℚ
  launch_latency_lookup : ℚ
  pingpong_device_lookup : ℤ → ℚ
  halopong_device_lookup : ℚ → ℚ

/-! ### The local time model (report_performance_models, lines 194-281)

Six timers in the order of `SPMV_test_names = {"colind","rowptr","vals","x","y","all"}`.
`m` is the local row count, `n` the local column count, `nnz` the local nonzero
count (all already narrowed to `int` by the driver). -/

/-- `SPMV_num_objects[5] = (m+1)*sizeof(rowptr_type) + nnz*sizeof(LO) + nnz*sizeof(SC)
+ n*sizeof(SC) + m*sizeof(SC)` as the exact size_t value, before the narrowing
assignment into the `int` array entry. -/
def SPMV_total_bytes (m n nnz : ℕ) : ℕ :=
  (m + 1) * sizeofRowptr + nnz * sizeofLO + nnz * sizeofSC + n * sizeofSC + m * sizeofSC

/-- `SPMV_num_objects` (lines 201-211); entry 5 is an `int`, so the size_t sum is
wrapped.  Indices past 5 are unused. -/
def SPMV_num_objects (m n nnz : ℕ) (i : ℕ) : ℤ :=
  if i = 0 then nnz
  else if i = 1 then (m : ℤ) + 1
  else if i = 2 then nnz
  else if i = 3 then n
  else if i = 4 then m
  else if i = 5 then wrap32 (SPMV_total_bytes m n nnz)
  else 0

/-- `SPMV_object_size` (lines 201-211). -/
def SPMV_object_size (i : ℕ) : ℤ :=
  if i = 0 then sizeofLO
  else if i = 1 then sizeofRowptr
  else if i = 2 then sizeofSC
  else if i = 3 then sizeofSC
  else if i = 4 then sizeofSC
  else if i = 5 then 1
  else 0

/-- `SPMV_corrected` (lines 201-211): composite entries use the latency-corrected
stream table, the "all" entry the plain one. -/
def SPMV_corrected (i : ℕ) : ℤ :=
  if i = 5 then 0 else 1

/-- `int size_in_bytes = SPMV_object_size[i] * SPMV_num_objects[i];` (line 221):
a 32-bit signed product. -/
def size_in_bytes (m n nnz : ℕ) (i : ℕ) : ℤ :=
  wrap32 (SPMV_object_size i * SPMV_num_objects m n nnz i)

/-- `double memory_traffic = (double)SPMV_object_size[i] * (double)SPMV_num_objects[i];`
(line 234): the exact product of the two `int` values. -/
def memory_traffic (m n nnz : ℕ) (i : ℕ) : ℚ :=
  (SPMV_object_size i : ℚ) * (SPMV_num_objects m n nnz i : ℚ)

/-- The table interpolation of lines 222-225: latency-corrected lookup for the five
composite entries, plain stream lookup for the "all" entry. -/
def avg_time (PM : PerfTables) (m n nnz : ℕ) (i : ℕ) : ℚ :=
  if SPMV_corrected i = 1 then
    PM.latency_corrected_stream_vector_lookup (size_in_bytes m n nnz i)
  else
    PM.stream_vector_lookup (size_in_bytes m n nnz i)

/-- `gb_per_sec[i] = convert_time_to_bandwidth_gbs(avg_distributed, 1, memory_traffic)`
(line 235), single-process path (`avg_distributed = avg_time`). -/
def gb_per_sec (PM : PerfTables) (m n nnz : ℕ) (i : ℕ) : ℚ :=
  convert_time_to_bandwidth_gbs (avg_time PM m n nnz i) 1 (memory_traffic m n nnz i)

/-- `spmv_memory_bytes` entries 0-4 (lines 265-272): rowptr, colind, values, x, y.
Note the ordering differs from the `SPMV_*` arrays, which put colind first.
These are `long unsigned int` (64-bit) products, so no wrapping occurs. -/
def spmv_memory_bytes (m n nnz : ℕ) (i : ℕ) : ℕ :=
  if i = 0 then (m + 1) * sizeofRowptr
  else if i = 1 then nnz * sizeofLO
  else if i = 2 then nnz * sizeofSC
  else if i = 3 then n * sizeofSC
  else if i = 4 then m * sizeofSC
  else 0

/-- `spmv_memory_bytes[NUM_TIMERS-1]`, accumulated by the loop at lines 273-274. -/
def spmv_memory_bytes_total (m n nnz : ℕ) : ℕ :=
  (List.range 5).foldl (fun acc i => acc + spmv_memory_bytes m n nnz i) 0

/-- Lines 277-279: `minimum_local_composite_time = avg_latency; for (i < 5)
minimum_local_composite_time += spmv_memory_bytes[i] / (GB * gb_per_sec[i]);`
(single-process path, where `avg_latency = PM.launch_latency_lookup()`). -/
def minimum_local_composite_time (PM : PerfTables) (m n nnz : ℕ) : ℚ :=
  (List.range 5).foldl
    (fun acc i => acc + (spmv_memory_bytes m n nnz i : ℚ) / (GB * gb_per_sec PM m n nnz i))
    PM.launch_latency_lookup

/-- Line 281: `minimum_local_all_time = spmv_memory_bytes[5] / (GB * gb_per_sec[5]);`. -/
def minimum_local_all_time (PM : PerfTables) (m n nnz : ℕ) : ℚ :=
  (spmv_memory_bytes_total m n nnz : ℚ) / (GB * gb_per_sec PM m n nnz 5)

/-- The composite model exactly as claim C1 words it (spec §4.5): for each of the
five objects, the object's byte volume divided by the bandwidth obtained from an
independent latency-corrected stream-table lookup at that same object's size, with
one latency term inserted per object read.  This definition follows the claim's
words; it is compared against `minimum_local_composite_time`, which follows the
code. -/
def claimC1_composite_time (PM : PerfTables) (m n nnz : ℕ) : ℚ :=
  (List.range 5).foldl
    (fun acc i =>
      acc + (spmv_memory_bytes m n nnz i : ℚ) /
        (GB * convert_time_to_bandwidth_gbs
          (PM.latency_corrected_stream_vector_lookup (spmv_memory_bytes m n nnz i))
          1 (spmv_memory_bytes m n nnz i))
        + PM.launch_latency_lookup)
    0

/-- A concrete instantiation of the lookup tables (quadratic latency-corrected
stream response, zero elsewhere) used as sample tables for counterexamples and
witnesses. -/
def PMquad : PerfTables :=
  { latency_corrected_stream_vector_lookup := fun z => (z : ℚ) * (z : ℚ)
    stream_vector_lookup := fun _ => 0
    launch_latency_lookup := 0
    pingpong_device_lookup := fun _ => 0
    halopong_device_lookup := fun _ => 0 }

/-! ### The remote (halo-exchange) model (report_performance_models, lines 165-375) -/

/-- The data the driver reads off an importer: the four-way ID classification and
the per-peer message lengths exposed by the Tpetra distributor
(`getLengthsTo` / `getLengthsFrom`). -/
structure ImporterData where
  numSameIDs : ℕ
  numPermuteIDs : ℕ
  numExportIDs : ℕ
  numRemoteIDs : ℕ
  send_lengths : List ℕ
  recv_lengths : List ℕ

/-- Lines 169-177: the halo-pong table build.  The guard tests only
`A->hasCrsGraph()`; inside, line 171 (`importer->getRemoteLIDs()`) calls through
the importer RCP unconditionally.  A member call on a null RCP is modelled as
`Except.error`; `Except.ok true` means the halopong table was built, `Except.ok
false` that the block was skipped. -/
def halopong_table_build (hasCrsGraph : Bool) (importer : Option ImporterData) :
    Except String Bool :=
  if hasCrsGraph then
    match importer with
    | none => Except.error "member call on a null importer RCP"
    | some _ => Except.ok true
  else
    Except.ok false

/-- The send-length loop of lines 339-342.  Each iteration adds a pingpong lookup
to `send_time` (first component) and ASSIGNS `total_send_length =
send_lengths[i]*sizeof(SC)` (second component) — an assignment, not an
accumulation, exactly as in the source. -/
def send_loop (PM : PerfTables) (send_lengths : List ℕ) : ℚ × ℕ :=
  (List.range send_lengths.length).foldl
    (fun acc i =>
      (acc.1 + PM.pingpong_device_lookup ((send_lengths.getD i 0 * sizeofSC : ℕ) : ℤ),
        send_lengths.getD i 0 * sizeofSC))
    (0, 0)

/-- The receive-length loop of lines 344-347.  The pingpong lookups use
`recv_lengths[i]`, but the assignment on line 346 reads `send_lengths[i]`:
`total_recv_length = send_lengths[i]*sizeof(SC);` — exactly as in the source. -/
def recv_loop (PM : PerfTables) (send_lengths recv_lengths : List ℕ) : ℚ × ℕ :=
  (List.range recv_lengths.length).foldl
    (fun acc i =>
      (acc.1 + PM.pingpong_device_lookup ((recv_lengths.getD i 0 * sizeofSC : ℕ) : ℤ),
        send_lengths.getD i 0 * sizeofSC))
    (0, 0)

/-- Line 349: `avg_size_per_msg = (double)total_send_length/(2.0*send_lengths.size())
+ (double)total_recv_length/(2.0*recv_lengths.size());`. -/
def avg_size_per_msg (PM : PerfTables) (send_lengths recv_lengths : List ℕ) : ℚ :=
  ((send_loop PM send_lengths).2 : ℚ) / (2 * (send_lengths.length : ℚ))
    + ((recv_loop PM send_lengths recv_lengths).2 : ℚ) / (2 * (recv_lengths.length : ℚ))

/-- The four remote-model outputs declared at lines 285-288. -/
structure RemoteTimes where
  time_pack_unpack_outofplace : ℚ
  time_pack_unpack_inplace : ℚ
  time_communicate_ping : ℚ
  time_communicate_halo : ℚ
deriving DecidableEq

/-- Lines 283-375: the remote part of the SpMV model.  All four quantities are
initialised to zero; the block only runs when `A->hasCrsGraph()` holds AND the
importer is non-null (this later block, unlike the table build at line 169, does
check `importer.is_null()`). -/
def remote_model (PM : PerfTables) (avg_latency : ℚ) (hasCrsGraph : Bool)
    (importer : Option ImporterData) : RemoteTimes :=
  if hasCrsGraph then
    match importer with
    | some imp =>
      let same_time := if imp.numSameIDs = 0 then 0 else
        2 * PM.latency_corrected_stream_vector_lookup ((imp.numSameIDs * sizeofSC : ℕ) : ℤ)
          + avg_latency
      let permute_time := if imp.numPermuteIDs = 0 then 0 else
        2 * PM.latency_corrected_stream_vector_lookup ((imp.numPermuteIDs * sizeofLO : ℕ) : ℤ)
          + 2 * PM.latency_corrected_stream_vector_lookup ((imp.numPermuteIDs * sizeofSC : ℕ) : ℤ)
          + avg_latency
      let export_time := if imp.numExportIDs = 0 then 0 else
        PM.latency_corrected_stream_vector_lookup ((imp.numExportIDs * sizeofLO : ℕ) : ℤ)
          + 2 * PM.latency_corrected_stream_vector_lookup ((imp.numExportIDs * sizeofSC : ℕ) : ℤ)
          + avg_latency
      let remote_time := if imp.numRemoteIDs = 0 then 0 else
        PM.latency_corrected_stream_vector_lookup ((imp.numRemoteIDs * sizeofLO : ℕ) : ℤ)
          + 2 * PM.latency_corrected_stream_vector_lookup ((imp.numRemoteIDs * sizeofSC : ℕ) : ℤ)
          + avg_latency
      { time_pack_unpack_outofplace := same_time + permute_time + export_time + remote_time
        time_pack_unpack_inplace := permute_time + export_time
        time_communicate_ping :=
          max (send_loop PM imp.send_lengths).1 (recv_loop PM imp.send_lengths imp.recv_lengths).1
        time_communicate_halo :=
          PM.halopong_device_lookup (avg_size_per_msg PM imp.send_lengths imp.recv_lengths) }
    | none => ⟨0, 0, 0, 0⟩
  else ⟨0, 0, 0, 0⟩

/-! ### The per-invocation correctness check (main_, lines 1408-1562)

Vectors are modelled as lists of `Option ℚ`: `none` stands for a NaN entry
(`Teuchos::ScalarTraits<Scalar>::nan()`), and every arithmetic operation
propagates it, as IEEE NaN does.  The 2-norm is modelled by its square so that
the embedding stays in ℚ; squaring is a strictly monotone bijection on
nonnegative reals, so equality and zero-ness of norms are preserved exactly. -/

/-- The squared 2-norm of a vector; `none` (NaN) in any entry poisons the result,
as it does for `norm2` on a NaN-filled Tpetra vector. -/
def norm2sq (v : List (Option ℚ)) : Option ℚ :=
  v.foldr
    (fun x acc =>
      match x, acc with
      | some a, some s => some (a * a + s)
      | _, _ => none)
    (some 0)

/-- `y->update(-one, *y_baseline, one)` (line 1538): `y := y - y_baseline`,
entrywise with NaN propagation. -/
def vupdate_sub (v w : List (Option ℚ)) : List (Option ℚ) :=
  List.zipWith
    (fun a b =>
      match a, b with
      | some x, some y => some (x - y)
      | _, _ => none)
    v w

/-- `y->putScalar(nan)` (line 1544): overwrite every entry with the NaN sentinel. -/
def putScalarNaN (v : List (Option ℚ)) : List (Option ℚ) :=
  v.map (fun _ => none)

/-- IEEE `==` on two computed (double) norms: false whenever either is NaN, exact
value comparison otherwise (line 1559 compares `y_mv_norm2 == y_norm2`). -/
def fpEq (a b : Option ℚ) : Bool :=
  match a, b with
  | some x, some y => x == y
  | _, _ => false

/-- The values printed by the correctness-check block (lines 1554-1561). -/
structure NormCheckReport where
  y_err : Option ℚ
  y_norm2 : Option ℚ
  y_baseline_norm2 : Option ℚ
  norms_bit_identical : Bool
  y_norm2_next_itr : Option ℚ
deriving DecidableEq

/-- Lines 1528-1561, the per-invocation block after each backend call:
`if (error_check_y && report_error_norms) { ... }`.  `y` is the shared output
vector; `y` (the Xpetra handle) and `yt` (the Tpetra handle) alias the same
buffer, so both norm computations read the same data.  Returns the report
printed (if any) and the state of the shared output vector after the block.
When the guard is false, nothing is computed and `y` is left untouched. -/
def norm_check_block (error_check_y report_error_norms : Bool)
    (y y_baseline : List (Option ℚ)) : Option NormCheckReport × List (Option ℚ) :=
  if error_check_y && report_error_norms then
    let y_norm2 := norm2sq y
    let y_mv_norm2 := norm2sq y
    let y1 := vupdate_sub y y_baseline
    let y_err := norm2sq y1
    let y2 := putScalarNaN y1
    let y_baseline_norm2 := norm2sq y_baseline
    let y_mv_norm2_next_itr := norm2sq y2
    (some
      { y_err := y_err
        y_norm2 := y_norm2
        y_baseline_norm2 := y_baseline_norm2
        norms_bit_identical := fpEq y_mv_norm2 y_norm2
        y_norm2_next_itr := y_mv_norm2_next_itr },
      y2)
  else
    (none, y)

/-! ### Backend selection and the randomized experiment loop (main_, lines 1129-1441) -/

/-- `enum class Experiments { MKL=0, TPETRA, KK, CUSPARSE, MAGMASPARSE, HYPRE, PETSC };`
(line 1230). -/
inductive Experiments where
  | MKL
  | TPETRA
  | KK
  | CUSPARSE
  | MAGMASPARSE
  | HYPRE
  | PETSC
deriving DecidableEq

/-- The compile-time configuration: which TPLs are compiled in (`HAVE_MUELU_MKL`,
`HAVE_MUELU_CUSPARSE`, `HAVE_MUELU_MAGMASPARSE`, `HAVE_MUELU_HYPRE`,
`HAVE_MUELU_PETSC`, `HAVE_MPI`) and whether the node type is the CUDA wrapper
node (the `std::is_same<NO, KokkosCudaWrapperNode>` test at line 1205). -/
structure CompileConfig where
  mkl : Bool
  cusparse : Bool
  magmasparse : Bool
  hypre : Bool
  petsc : Bool
  mpi : Bool
  nodeIsCuda : Bool
deriving DecidableEq

/-- The `do_*` flag values right after `clp.parse(argc, argv)`: defaults, the
pre-parse compile-guard resets, and any command-line overrides have already been
applied, so each flag may hold either value. -/
structure RequestFlags where
  do_mkl : Bool
  do_tpetra : Bool
  do_kk : Bool
  do_cusparse : Bool
  do_magmasparse : Bool
  do_hypre : Bool
  do_petsc : Bool
deriving DecidableEq

/-- The "was requested, but ... Disabling..." messages of lines 1187-1227, one tag
per message text. -/
inductive BackendWarning where
  | KKTooManyRanks
  | MKLUnavailable
  | CuSparseUnavailable
  | MagmaSparseUnavailable
  | HypreUnavailable
  | PetscUnavailable
deriving DecidableEq

/-- Lines 1187-1227: the post-parse eligibility checks, in source order.  Each
`p*` pair is (warnings emitted, resulting flag).  Note the last block (lines
1222-1227) reproduces the source exactly: when PETSc is not compiled in, the
guard tests `do_hypre` (its value AFTER the Hypre block), prints the
"Petsc was requested" message and clears `do_petsc`. -/
def filter_backends (cfg : CompileConfig) (nproc : ℕ) (f : RequestFlags) :
    List BackendWarning × RequestFlags :=
  let p1 := if f.do_kk && decide (1 < nproc)
    then ([BackendWarning.KKTooManyRanks], false) else ([], f.do_kk)
  let p2 := if !cfg.mkl && f.do_mkl
    then ([BackendWarning.MKLUnavailable], false) else ([], f.do_mkl)
  let p3 := if !cfg.cusparse then
      (if f.do_cusparse then ([BackendWarning.CuSparseUnavailable], false)
       else ([], f.do_cusparse))
    else ([], f.do_cusparse && cfg.nodeIsCuda)
  let p4 := if !cfg.magmasparse && f.do_magmasparse
    then ([BackendWarning.MagmaSparseUnavailable], false) else ([], f.do_magmasparse)
  let p5 := if !cfg.hypre && f.do_hypre
    then ([BackendWarning.HypreUnavailable], false) else ([], f.do_hypre)
  let p6 := if !cfg.petsc && p5.2
    then ([BackendWarning.PetscUnavailable], false) else ([], f.do_petsc)
  (p1.1 ++ p2.1 ++ p3.1 ++ p4.1 ++ p5.1 ++ p6.1,
    { do_mkl := p2.2, do_tpetra := f.do_tpetra, do_kk := p1.2, do_cusparse := p3.2,
      do_magmasparse := p4.2, do_hypre := p5.2, do_petsc := p6.2 })

/-- Lines 1240-1265: `my_experiments` is populated in this fixed order, each
backend guarded by its compile flag (the `#ifdef`) and its (filtered) `do_*`
flag; TPETRA and KK are "assumed available". -/
def build_experiments (cfg : CompileConfig) (f : RequestFlags) : List Experiments :=
  (if cfg.mkl && f.do_mkl then [Experiments.MKL] else [])
    ++ (if cfg.cusparse && f.do_cusparse then [Experiments.CUSPARSE] else [])
    ++ (if cfg.magmasparse && f.do_magmasparse then [Experiments.MAGMASPARSE] else [])
    ++ (if cfg.hypre && cfg.mpi && f.do_hypre then [Experiments.HYPRE] else [])
    ++ (if cfg.petsc && cfg.mpi && f.do_petsc then [Experiments.PETSC] else [])
    ++ (if f.do_tpetra then [Experiments.TPETRA] else [])
    ++ (if f.do_kk then [Experiments.KK] else [])

/-- The full backend setup: eligibility filtering followed by experiment-list
construction.  Returns (warnings, experiment list). -/
def setup_backends (cfg : CompileConfig) (nproc : ℕ) (f : RequestFlags) :
    List BackendWarning × List Experiments :=
  let fr := filter_backends cfg nproc f
  (fr.1, build_experiments cfg fr.2)

/-- The underlying integer value of each enumerator (`enum class` with default
underlying type `int`, values 0-6). -/
def experimentTag : Experiments → ℕ
  | .MKL => 0
  | .TPETRA => 1
  | .KK => 2
  | .CUSPARSE => 3
  | .MAGMASPARSE => 4
  | .HYPRE => 5
  | .PETSC => 6

/-- Rebuild an enumerator from its integer value (values above 6 cannot arise
from `experimentTag`). -/
def tagToExperiment (t : ℕ) : Experiments :=
  if t = 0 then .MKL
  else if t = 1 then .TPETRA
  else if t = 2 then .KK
  else if t = 3 then .CUSPARSE
  else if t = 4 then .MAGMASPARSE
  else if t = 5 then .HYPRE
  else .PETSC

/-- The raw-byte image of the experiment vector that line 1436 broadcasts:
`sizeof(Experiments::TPETRA) = 4` bytes per entry, little-endian. -/
def encodeExperimentBytes (l : List Experiments) : List ℕ :=
  l.flatMap (fun e =>
    [experimentTag e % 256, experimentTag e / 256 % 256,
      experimentTag e / 65536 % 256, experimentTag e / 16777216 % 256])

/-- Reinterpreting the received byte buffer as a vector of `Experiments`, four
bytes (one `int`) per entry. -/
def decodeExperimentBytes : List ℕ → List Experiments
  | b0 :: b1 :: b2 :: b3 :: rest =>
    tagToExperiment (b0 + 256 * b1 + 65536 * b2 + 16777216 * b3) :: decodeExperimentBytes rest
  | _ => []

/-- Lines 1428-1438: after rank 0 shuffles `my_experiments`, the vector's bytes
are broadcast; every rank (rank 0 included, whose buffer is the source) then
holds the decoded image of rank 0's shuffled list. -/
def broadcast_ordering (rank0_order : List Experiments) (_rank : ℕ) : List Experiments :=
  decodeExperimentBytes (encodeExperimentBytes rank0_order)

/-- A host-only build: no optional TPL compiled in, MPI present. -/
def cfgHostOnly : CompileConfig :=
  { mkl := false, cusparse := false, magmasparse := false, hypre := false, petsc := false,
    mpi := true, nodeIsCuda := false }

/-- Request only the Tpetra and KokkosKernels backends. -/
def reqHostOnly : RequestFlags :=
  { do_mkl := false, do_tpetra := true, do_kk := true, do_cusparse := false,
    do_magmasparse := false, do_hypre := false, do_petsc := false }

/-- A build with every TPL except PETSc compiled in. -/
def cfgPetscMissing : CompileConfig :=
  { mkl := true, cusparse := true, magmasparse := true, hypre := true, petsc := false,
    mpi := true, nodeIsCuda := true }

/-- A command line requesting PETSc (and Tpetra) with Hypre disabled:
`--petsc --nohypre --nomkl --nokk --nocusparse --nomagmasparse`. -/
def reqPetscOnly : RequestFlags :=
  { do_mkl := false, do_tpetra := true, do_kk := false, do_cusparse := false,
    do_magmasparse := false, do_hypre := false, do_petsc := true }

/-! ### MakeContiguousMaps (lines 434-496)

A distributed Tpetra map is modelled by its global element count, its per-rank
lists of owned global IDs (in rank order), and its `isContiguous()` flag. -/

structure TMap where
  globalNum : ℕ
  gids : List (List ℤ)
  contiguous : Bool
deriving DecidableEq

/-- The per-rank identifier blocks of a uniform contiguous map: rank p owns the
run starting at the sum of the earlier ranks' local sizes. -/
def contigGidBlocks (offset : ℕ) : List ℕ → List (List ℤ)
  | [] => []
  | s :: rest =>
    ((List.range s).map (fun i => ((offset + i : ℕ) : ℤ))) :: contigGidBlocks (offset + s) rest

/-- Modelled from the spec: the `Tpetra::Map(numGlobal, numLocal, 0, comm)`
constructor used at lines 466 and 478 is not part of the corpus; per the spec
(§3 ContiguousMap, §4.2) it builds "a brand-new contiguous domain map of the
same size/distribution" — 0-based, each process's identifiers one unbroken run,
in rank order — and such a map reports `isContiguous() = true`. -/
def makeUniformContigMap (numGlobal : ℕ) (localSizes : List ℕ) : TMap :=
  { globalNum := numGlobal, gids := contigGidBlocks 0 localSizes, contiguous := true }

/-- Modelled from the spec: the Tpetra map-from-element-list constructor used at
lines 489 and 493 is not part of the corpus; it builds a map holding exactly the
given per-rank identifier lists with the given global count, and such a map is
not marked contiguous. -/
def makeMapFromGids (numGlobal : ℕ) (gidLists : List (List ℤ)) : TMap :=
  { globalNum := numGlobal, gids := gidLists, contiguous := false }

/-- Modelled from the spec: the halo import of lines 482-486 (`doImport` with
INSERT) is not part of the corpus; per the spec (§4.2) it propagates "the new
global identifiers through a halo exchange", i.e. each column-map identifier
receives the value its owner holds for it in the renumbered domain map.  For the
0-based rank-ordered contiguous target this is the identifier's position in the
rank-ordered concatenation of the old domain map. -/
def translateGid (domain : TMap) (g : ℤ) : ℤ :=
  ((domain.gids.flatten).indexOf g : ℕ)

/-- Whether a returned map is the very input object (the same RCP, returned by
reference) or a newly constructed one. -/
inductive MapRef where
  | orig (m : TMap)
  | fresh (m : TMap)
deriving DecidableEq

def MapRef.toMap : MapRef → TMap
  | .orig m => m
  | .fresh m => m

/-- Lines 434-496: `MakeContiguousMaps`.  Returns (row, column, domain) results in
the order of the out-parameters' meaning.  `hasImporter` is `Matrix.getGraph()->
getImporter()` being non-null. -/
def MakeContiguousMaps (RowMap DomainMap ColumnMap : TMap) (hasImporter : Bool) :
    MapRef × MapRef × MapRef :=
  let row := if RowMap.contiguous then MapRef.orig RowMap
    else MapRef.fresh (makeUniformContigMap RowMap.globalNum (RowMap.gids.map List.length))
  if DomainMap.contiguous then
    (row, MapRef.orig ColumnMap, MapRef.orig DomainMap)
  else
    let newDomain := makeUniformContigMap DomainMap.globalNum (DomainMap.gids.map List.length)
    let col :=
      if hasImporter then
        MapRef.fresh (makeMapFromGids ColumnMap.globalNum
          (ColumnMap.gids.map (fun l => l.map (translateGid DomainMap))))
      else
        MapRef.fresh (makeMapFromGids ColumnMap.globalNum newDomain.gids)
    (row, col, MapRef.fresh newDomain)

/-- Whether an identifier list is a single contiguous increasing run. -/
def isContigRun (l : List ℤ) : Bool :=
  l == (List.range l.length).map (fun i : ℕ => l.headI + (i : ℤ))

/-- Claim C5 as worded: every output map of `MakeContiguousMaps` has per-rank
unique identifiers forming single contiguous runs, and preserves the
corresponding input map's global element count.  This definition follows the
claim's words, for comparison with the code's behaviour. -/
def claimC5_output_maps_ok (RowMap DomainMap ColumnMap : TMap) (hasImporter : Bool) : Bool :=
  let out := MakeContiguousMaps RowMap DomainMap ColumnMap hasImporter
  [(out.1.toMap, RowMap), (out.2.1.toMap, ColumnMap), (out.2.2.toMap, DomainMap)].all
    (fun p =>
      p.1.gids.all (fun l => decide l.Nodup && isContigRun l)
        && (p.1.globalNum == p.2.globalNum))

/-- A two-rank matrix with non-contiguous row/domain numbering {10,11|20,21} and a
column map whose rank-0 list carries the ghost identifier 21 owned by rank 1. -/
def RowNC : TMap := ⟨4, [[10, 11], [20, 21]], false⟩

/-- The non-contiguous domain map of the same example. -/
def DomNC : TMap := ⟨4, [[10, 11], [20, 21]], false⟩

/-- The column map of the same example (5 entries counted with multiplicity). -/
def ColNC : TMap := ⟨5, [[10, 11, 21], [20, 21]], false⟩

/-- An already-contiguous row map on two ranks. -/
def RowC : TMap := ⟨4, [[0, 1], [2, 3]], true⟩

/-- An already-contiguous domain map on two ranks. -/
def DomC : TMap := ⟨4, [[0, 1], [2, 3]], true⟩

/-- A column map paired with the contiguous maps above. -/
def ColC : TMap := ⟨5, [[0, 1, 3], [2, 3]], false⟩

/-! ## Supporting lemmas -/

theorem wrap32_eq_self {x : ℤ} (h0 : 0 ≤ x) (h : x < 2147483648) : wrap32 x = x := by
  unfold wrap32
  have hmod : x % 4294967296 = x := Int.emod_eq_of_lt h0 (by omega)
  simp only [hmod]
  omega

theorem spmv_memory_bytes_total_eq (m n nnz : ℕ) :
    spmv_memory_bytes_total m n nnz = SPMV_total_bytes m n nnz := by
  simp [spmv_memory_bytes_total, SPMV_total_bytes, List.range_succ, spmv_memory_bytes]

theorem GB_ne_zero : GB ≠ 0 := by norm_num [GB]

/-- Core algebra of the local model: a byte volume `B` divided by `GB` times the
bandwidth derived (via `convert_time_to_bandwidth_gbs`) from a looked-up time `t`
at traffic `traffic` collapses to `B * t / traffic`. -/
theorem div_GB_convert (B traffic t : ℚ) (htr : traffic ≠ 0) :
    B / (GB * convert_time_to_bandwidth_gbs t 1 traffic) = B * t / traffic := by
  unfold convert_time_to_bandwidth_gbs
  rcases eq_or_ne t 0 with ht | ht
  · simp [ht]
  · have hGB := GB_ne_zero
    field_simp
    ring

/-- The second component of the indexed pair-fold is whatever the last iteration
assigned. -/
theorem range_foldl_pair_snd (f : ℚ × ℕ → ℕ → ℚ) (g : ℕ → ℕ) (n : ℕ) (init : ℚ × ℕ) :
    ((List.range (n + 1)).foldl (fun acc i => (f acc i, g i)) init).2 = g n := by
  rw [List.range_succ, List.foldl_append]
  rfl

/-- The average-message-size actually passed to the halopong lookup: last send
length over 2k plus the send length at the last receive index over 2j. -/
theorem avg_size_formula (PM : PerfTables) (sL rL : List ℕ)
    (hk : 0 < sL.length) (hj : 0 < rL.length) :
    avg_size_per_msg PM sL rL =
      ((sL.getD (sL.length - 1) 0 * sizeofSC : ℕ) : ℚ) / (2 * (sL.length : ℚ))
        + ((sL.getD (rL.length - 1) 0 * sizeofSC : ℕ) : ℚ) / (2 * (rL.length : ℚ)) := by
  obtain ⟨k, hk'⟩ : ∃ k, sL.length = k + 1 := ⟨sL.length - 1, by omega⟩
  obtain ⟨j, hj'⟩ : ∃ j, rL.length = j + 1 := ⟨rL.length - 1, by omega⟩
  unfold avg_size_per_msg send_loop recv_loop
  rw [hk', hj', range_foldl_pair_snd, range_foldl_pair_snd]
  simp

/-- Reinterpreting the broadcast bytes recovers the broadcast list exactly. -/
theorem decode_encode_bytes (l : List Experiments) :
    decodeExperimentBytes (encodeExperimentBytes l) = l := by
  induction l with
  | nil => rfl
  | cons e t ih =>
    have hc : encodeExperimentBytes (e :: t) =
        [experimentTag e % 256, experimentTag e / 256 % 256,
          experimentTag e / 65536 % 256, experimentTag e / 16777216 % 256]
          ++ encodeExperimentBytes t := by
      simp [encodeExperimentBytes]
    rw [hc]
    cases e <;> simp [experimentTag, decodeExperimentBytes, tagToExperiment, ih]

/-- Each backend is pushed onto `my_experiments` at most once, so the list is
duplicate-free. -/
theorem build_experiments_nodup (cfg : CompileConfig) (f : RequestFlags) :
    (build_experiments cfg f).Nodup := by
  unfold build_experiments
  split_ifs <;> simp_all

theorem contigGidBlocks_flatten (sizes : List ℕ) (off : ℕ) :
    (contigGidBlocks off sizes).flatten =
      (List.range sizes.sum).map (fun i => ((off + i : ℕ) : ℤ)) := by
  induction sizes generalizing off with
  | nil => simp [contigGidBlocks]
  | cons s rest ih =>
    simp only [contigGidBlocks, List.flatten_cons, List.sum_cons]
    rw [ih (off + s), List.range_add, List.map_append, List.map_map]
    congr 1
    apply List.map_congr_left
    intro a _
    simp
    omega

theorem isContigRun_range_map (off s : ℕ) :
    isContigRun ((List.range s).map (fun i => ((off + i : ℕ) : ℤ))) = true := by
  unfold isContigRun
  simp only [beq_iff_eq]
  cases s with
  | zero => simp
  | succ k =>
    have hh : ((List.range (k + 1)).map (fun i => ((off + i : ℕ) : ℤ))).headI =
        ((off : ℕ) : ℤ) := by
      rw [List.range_succ_eq_map]
      simp
    apply List.ext_getElem
    · simp
    · intro i h1 h2
      simp only [List.getElem_map, List.getElem_range, hh]
      push_cast
      ring

theorem contigBlocks_mem_run (sizes : List ℕ) (off : ℕ) (l : List ℤ)
    (hl : l ∈ contigGidBlocks off sizes) : isContigRun l = true := by
  induction sizes generalizing off with
  | nil => simp [contigGidBlocks] at hl
  | cons s rest ih =>
    simp only [contigGidBlocks, List.mem_cons] at hl
    rcases hl with rfl | hl
    · exact isContigRun_range_map off s
    · exact ih (off + s) hl

theorem contigGidBlocks_mem_nodup (sizes : List ℕ) (off : ℕ) (l : List ℤ)
    (hl : l ∈ contigGidBlocks off sizes) : l.Nodup := by
  induction sizes generalizing off with
  | nil => simp [contigGidBlocks] at hl
  | cons s rest ih =>
    simp only [contigGidBlocks, List.mem_cons] at hl
    rcases hl with rfl | hl
    · refine List.Nodup.map ?_ (List.nodup_range _)
      intro a b hab
      dsimp only at hab
      omega
    · exact ih (off + s) hl

/-- Translating a duplicate-free identifier list through the renumbering keeps it
duplicate-free: positions in the flattened domain list are unique per identifier. -/
theorem translate_map_nodup (DomainMap : TMap) (l : List ℤ) (hl : l.Nodup)
    (hmem : ∀ g ∈ l, g ∈ DomainMap.gids.flatten) :
    (l.map (translateGid DomainMap)).Nodup := by
  refine List.Nodup.map_on ?_ hl
  intro x hx y hy hxy
  unfold translateGid at hxy
  have hnat : List.indexOf x DomainMap.gids.flatten = List.indexOf y DomainMap.gids.flatten := by
    exact_mod_cast hxy
  exact (List.indexOf_inj (hmem x hx) (hmem y hy)).mp hnat

theorem norm2sq_isSome {v : List (Option ℚ)} (hv : ∀ x ∈ v, x ≠ none) :
    (norm2sq v).isSome = true := by
  induction v with
  | nil => rfl
  | cons a t ih =>
    obtain ⟨qa, rfl⟩ : ∃ q, a = some q := by
      cases a with
      | none => exact absurd rfl (hv none (by simp))
      | some q => exact ⟨q, rfl⟩
    have ht := ih (fun x hx => hv x (List.mem_cons_of_mem _ hx))
    obtain ⟨s, hs⟩ := Option.isSome_iff_exists.mp ht
    unfold norm2sq at hs ⊢
    simp only [List.foldr_cons, hs]
    rfl

theorem fpEq_refl_of_isSome {a : Option ℚ} (ha : a.isSome = true) : fpEq a a = true := by
  obtain ⟨q, rfl⟩ := Option.isSome_iff_exists.mp ha
  simp [fpEq]

/-- Value of the code's composite model on the sample tables at m = n = nnz = 1. -/
theorem PMquad_composite_value : minimum_local_composite_time PMquad 1 1 1 = 320 := by
  unfold minimum_local_composite_time
  rw [show List.range 5 = [0, 1, 2, 3, 4] from rfl]
  simp only [List.foldl_cons, List.foldl_nil]
  norm_num [PMquad, spmv_memory_bytes, gb_per_sec, avg_time, size_in_bytes, memory_traffic,
    SPMV_corrected, SPMV_object_size, SPMV_num_objects, wrap32, convert_time_to_bandwidth_gbs,
    GB, sizeofRowptr, sizeofLO, sizeofSC]

/-- Value of the claim's composite formula on the sample tables at m = n = nnz = 1. -/
theorem PMquad_claim_value : claimC1_composite_time PMquad 1 1 1 = 464 := by
  unfold claimC1_composite_time
  rw [show List.range 5 = [0, 1, 2, 3, 4] from rfl]
  simp only [List.foldl_cons, List.foldl_nil]
  norm_num [PMquad, spmv_memory_bytes, convert_time_to_bandwidth_gbs, GB, sizeofRowptr,
    sizeofLO, sizeofSC]

/-! ## Claim theorems -/

/-- C1, counterexample.  The claim's composite formula (each object's bytes over
the bandwidth looked up at that same object's size, one latency term per object)
disagrees with the code: at m = n = nnz = 1 with quadratic latency-corrected
lookups, the code's composite minimum is 320 while the claimed formula gives 464,
because the code pairs the rowptr byte volume with the bandwidth looked up at the
colind size and vice versa (spmv_memory_bytes is rowptr-first, the SPMV_* tables
colind-first), and inserts exactly one latency term. -/
theorem c1_composite_counterexample :
    minimum_local_composite_time PMquad 1 1 1 ≠ claimC1_composite_time PMquad 1 1 1 := by
  rw [PMquad_composite_value, PMquad_claim_value]
  norm_num

/-- C1 (amended).  What the code actually computes: one single launch-latency
term plus, for each object, its byte volume times the looked-up time divided by
the lookup's own traffic — where the rowptr byte volume is paired with the
lookup at the colind size and the colind byte volume with the lookup at the
rowptr size (the byte array is rowptr-first, the lookup tables colind-first);
values, x and y pair with their own sizes, so those three terms collapse to
plain lookups. -/
theorem c1_composite_code_formula (PM : PerfTables) (m n nnz : ℕ)
    (hm : 0 < m) (hn : 0 < n) (hz : 0 < nnz)
    (h : SPMV_total_bytes m n nnz < 2147483648) :
    minimum_local_composite_time PM m n nnz =
      PM.launch_latency_lookup
        + (((m + 1) * sizeofRowptr : ℕ) : ℚ)
            * PM.latency_corrected_stream_vector_lookup ((sizeofLO : ℤ) * (nnz : ℤ))
            / ((sizeofLO : ℚ) * (nnz : ℚ))
        + ((nnz * sizeofLO : ℕ) : ℚ)
            * PM.latency_corrected_stream_vector_lookup ((sizeofRowptr : ℤ) * ((m : ℤ) + 1))
            / ((sizeofRowptr : ℚ) * ((m : ℚ) + 1))
        + PM.latency_corrected_stream_vector_lookup ((sizeofSC : ℤ) * (nnz : ℤ))
        + PM.latency_corrected_stream_vector_lookup ((sizeofSC : ℤ) * (n : ℤ))
        + PM.latency_corrected_stream_vector_lookup ((sizeofSC : ℤ) * (m : ℤ)) := by
  have hb : (m + 1) * 8 + nnz * 4 + nnz * 8 + n * 8 + m * 8 < 2147483648 := by
    have h' := h
    unfold SPMV_total_bytes sizeofRowptr sizeofLO sizeofSC at h'
    omega
  have w0 : wrap32 ((sizeofLO : ℤ) * (nnz : ℤ)) = (sizeofLO : ℤ) * (nnz : ℤ) :=
    wrap32_eq_self (mul_nonneg (by omega) (by omega)) (by norm_num [sizeofLO]; omega)
  have w1 : wrap32 ((sizeofRowptr : ℤ) * ((m : ℤ) + 1)) = (sizeofRowptr : ℤ) * ((m : ℤ) + 1) :=
    wrap32_eq_self (mul_nonneg (by omega) (by omega)) (by norm_num [sizeofRowptr]; omega)
  have w2 : wrap32 ((sizeofSC : ℤ) * (nnz : ℤ)) = (sizeofSC : ℤ) * (nnz : ℤ) :=
    wrap32_eq_self (mul_nonneg (by omega) (by omega)) (by norm_num [sizeofSC]; omega)
  have w3 : wrap32 ((sizeofSC : ℤ) * (n : ℤ)) = (sizeofSC : ℤ) * (n : ℤ) :=
    wrap32_eq_self (mul_nonneg (by omega) (by omega)) (by norm_num [sizeofSC]; omega)
  have w4 : wrap32 ((sizeofSC : ℤ) * (m : ℤ)) = (sizeofSC : ℤ) * (m : ℤ) :=
    wrap32_eq_self (mul_nonneg (by omega) (by omega)) (by norm_num [sizeofSC]; omega)
  have t0 : gb_per_sec PM m n nnz 0 = convert_time_to_bandwidth_gbs
      (PM.latency_corrected_stream_vector_lookup ((sizeofLO : ℤ) * (nnz : ℤ))) 1
      ((sizeofLO : ℚ) * (nnz : ℚ)) := by
    simp [gb_per_sec, avg_time, size_in_bytes, memory_traffic, SPMV_corrected,
      SPMV_object_size, SPMV_num_objects, w0]
  have t1 : gb_per_sec PM m n nnz 1 = convert_time_to_bandwidth_gbs
      (PM.latency_corrected_stream_vector_lookup ((sizeofRowptr : ℤ) * ((m : ℤ) + 1))) 1
      ((sizeofRowptr : ℚ) * ((m : ℚ) + 1)) := by
    simp [gb_per_sec, avg_time, size_in_bytes, memory_traffic, SPMV_corrected,
      SPMV_object_size, SPMV_num_objects, w1]
  have t2 : gb_per_sec PM m n nnz 2 = convert_time_to_bandwidth_gbs
      (PM.latency_corrected_stream_vector_lookup ((sizeofSC : ℤ) * (nnz : ℤ))) 1
      ((sizeofSC : ℚ) * (nnz : ℚ)) := by
    simp [gb_per_sec, avg_time, size_in_bytes, memory_traffic, SPMV_corrected,
      SPMV_object_size, SPMV_num_objects, w2]
  have t3 : gb_per_sec PM m n nnz 3 = convert_time_to_bandwidth_gbs
      (PM.latency_corrected_stream_vector_lookup ((sizeofSC : ℤ) * (n : ℤ))) 1
      ((sizeofSC : ℚ) * (n : ℚ)) := by
    simp [gb_per_sec, avg_time, size_in_bytes, memory_traffic, SPMV_corrected,
      SPMV_object_size, SPMV_num_objects, w3]
  have t4 : gb_per_sec PM m n nnz 4 = convert_time_to_bandwidth_gbs
      (PM.latency_corrected_stream_vector_lookup ((sizeofSC : ℤ) * (m : ℤ))) 1
      ((sizeofSC : ℚ) * (m : ℚ)) := by
    simp [gb_per_sec, avg_time, size_in_bytes, memory_traffic, SPMV_corrected,
      SPMV_object_size, SPMV_num_objects, w4]
  have hm' : ((m : ℚ)) ≠ 0 := by exact_mod_cast hm.ne'
  have hn' : ((n : ℚ)) ≠ 0 := by exact_mod_cast hn.ne'
  have hz' : ((nnz : ℚ)) ≠ 0 := by exact_mod_cast hz.ne'
  unfold minimum_local_composite_time
  rw [show List.range 5 = [0, 1, 2, 3, 4] from rfl]
  simp only [List.foldl_cons, List.foldl_nil]
  rw [t0, t1, t2, t3, t4]
  rw [div_GB_convert _ _ _ (by norm_num [sizeofLO, hz']),
    div_GB_convert _ _ _ (by norm_num [sizeofRowptr]; exact_mod_cast Nat.succ_ne_zero m),
    div_GB_convert _ _ _ (by norm_num [sizeofSC, hz']),
    div_GB_convert _ _ _ (by norm_num [sizeofSC, hn']),
    div_GB_convert _ _ _ (by norm_num [sizeofSC, hm'])]
  simp only [spmv_memory_bytes, reduceIte]
  norm_num [sizeofLO, sizeofRowptr, sizeofSC]
  field_simp
  ring

/-- C1 witness: the amended composite formula holds at the sample tables with
m = n = nnz = 1. -/
theorem c1_composite_code_formula_witness :
    (0 < 1 ∧ SPMV_total_bytes 1 1 1 < 2147483648)
    ∧ minimum_local_composite_time PMquad 1 1 1 =
      PMquad.launch_latency_lookup
        + (((1 + 1) * sizeofRowptr : ℕ) : ℚ)
            * PMquad.latency_corrected_stream_vector_lookup ((sizeofLO : ℤ) * ((1 : ℕ) : ℤ))
            / ((sizeofLO : ℚ) * ((1 : ℕ) : ℚ))
        + (((1 : ℕ) * sizeofLO : ℕ) : ℚ)
            * PMquad.latency_corrected_stream_vector_lookup
                ((sizeofRowptr : ℤ) * (((1 : ℕ) : ℤ) + 1))
            / ((sizeofRowptr : ℚ) * (((1 : ℕ) : ℚ) + 1))
        + PMquad.latency_corrected_stream_vector_lookup ((sizeofSC : ℤ) * ((1 : ℕ) : ℤ))
        + PMquad.latency_corrected_stream_vector_lookup ((sizeofSC : ℤ) * ((1 : ℕ) : ℤ))
        + PMquad.latency_corrected_stream_vector_lookup ((sizeofSC : ℤ) * ((1 : ℕ) : ℤ)) :=
  ⟨⟨by decide, by decide⟩,
    c1_composite_code_formula PMquad 1 1 1 (by decide) (by decide) (by decide) (by decide)⟩

/-- C2 (code_bug evaluation).  With no importer on the matrix's graph (the
single-process case) but `hasCrsGraph()` true — which holds for every CRS matrix
this driver runs on — the halo-pong table build at lines 169-177 does NOT skip:
line 171 calls through the null importer RCP, a crash/throw, so the report never
completes; had control reached the remote-cost block (lines 283-375), its
null-importer guard would have left all four halo-based quantities exactly
zero, as the claim expects. -/
theorem c2_null_importer_halo_crash (PM : PerfTables) (lat : ℚ) :
    halopong_table_build true none = Except.error "member call on a null importer RCP"
    ∧ remote_model PM lat true none = ⟨0, 0, 0, 0⟩ :=
  ⟨rfl, rfl⟩

/-- C3 (confirmed).  Per repetition: every rank's executed list is exactly the
byte-decoded broadcast of rank 0's shuffled list (so all processes run the
identical order); any shuffle of the enabled-backend list contains each enabled
backend exactly once; and two shuffles arising from different seeds execute the
identical set of backends. -/
theorem c3_shuffled_order_broadcast (cfg : CompileConfig) (nproc : ℕ) (req : RequestFlags)
    (perm perm2 : List Experiments)
    (h1 : perm.Perm (setup_backends cfg nproc req).2)
    (h2 : perm2.Perm (setup_backends cfg nproc req).2) :
    (∀ rank : ℕ, broadcast_ordering perm rank = perm)
    ∧ (∀ e ∈ (setup_backends cfg nproc req).2, perm.count e = 1)
    ∧ perm.toFinset = perm2.toFinset := by
  refine ⟨fun rank => decode_encode_bytes perm, fun e he => ?_, ?_⟩
  · rw [h1.count_eq e]
    exact List.nodup_iff_count_eq_one.mp (build_experiments_nodup cfg _) e he
  · exact Finset.ext fun a => by
      simp only [List.mem_toFinset]
      rw [h1.mem_iff, ← h2.mem_iff]

/-- C3 witness: on a host-only single-process run with Tpetra and KokkosKernels
enabled, the shuffle [KK, TPETRA] broadcasts to every rank unchanged, counts
TPETRA once, and a differently-seeded shuffle [TPETRA, KK] yields the same set. -/
theorem c3_shuffled_order_broadcast_witness :
    broadcast_ordering [Experiments.KK, Experiments.TPETRA] 3 =
        [Experiments.KK, Experiments.TPETRA]
    ∧ List.count Experiments.TPETRA [Experiments.KK, Experiments.TPETRA] = 1
    ∧ ([Experiments.KK, Experiments.TPETRA] : List Experiments).toFinset =
        ([Experiments.TPETRA, Experiments.KK] : List Experiments).toFinset := by
  obtain ⟨a, b, c⟩ := c3_shuffled_order_broadcast cfgHostOnly 1 reqHostOnly
    [Experiments.KK, Experiments.TPETRA] [Experiments.TPETRA, Experiments.KK]
    (by decide) (by decide)
  exact ⟨a 3, b Experiments.TPETRA (by decide), c⟩

/-- C4 (confirmed).  When the row map is already contiguous, `MakeContiguousMaps`
returns that very row-map object (the same RCP, not a renumbered copy); when the
domain map is already contiguous, the original domain and column maps are
likewise returned unchanged. -/
theorem c4_contiguous_maps_reused (RowMap DomainMap ColumnMap : TMap) (hasImporter : Bool) :
    (RowMap.contiguous = true →
      (MakeContiguousMaps RowMap DomainMap ColumnMap hasImporter).1 = MapRef.orig RowMap)
    ∧ (DomainMap.contiguous = true →
      (MakeContiguousMaps RowMap DomainMap ColumnMap hasImporter).2.2 = MapRef.orig DomainMap
      ∧ (MakeContiguousMaps RowMap DomainMap ColumnMap hasImporter).2.1 =
          MapRef.orig ColumnMap) := by
  unfold MakeContiguousMaps
  constructor
  · intro hrow
    simp [hrow]
    split_ifs <;> rfl
  · intro hdom
    simp [hdom]

/-- C4 witness: contiguous row and domain maps on two ranks are passed through by
reference. -/
theorem c4_contiguous_maps_reused_witness :
    RowC.contiguous = true
    ∧ DomC.contiguous = true
    ∧ (MakeContiguousMaps RowC DomC ColC false).1 = MapRef.orig RowC
    ∧ (MakeContiguousMaps RowC DomC ColC false).2.2 = MapRef.orig DomC
    ∧ (MakeContiguousMaps RowC DomC ColC false).2.1 = MapRef.orig ColC := by
  obtain ⟨h1, h2⟩ := c4_contiguous_maps_reused RowC DomC ColC false
  exact ⟨rfl, rfl, h1 rfl, (h2 rfl).1, (h2 rfl).2⟩

/-- C5, counterexample.  For the two-rank example with non-contiguous maps and an
importer, the renumbered column map's rank-0 identifiers are [0, 1, 3] — the
ghost entry owned by rank 1 breaks the run — so the claim that every output
map's per-process identifiers form a single contiguous run is false. -/
theorem c5_column_map_counterexample :
    RowNC.contiguous = false
    ∧ DomNC.contiguous = false
    ∧ ColNC.contiguous = false
    ∧ (MakeContiguousMaps RowNC DomNC ColNC true).2.1.toMap.gids = [[0, 1, 3], [2, 3]]
    ∧ isContigRun [0, 1, 3] = false
    ∧ claimC5_output_maps_ok RowNC DomNC ColNC true = false := by
  refine ⟨rfl, rfl, rfl, ?_, by decide, ?_⟩
  · decide
  · decide

/-- C5 (amended).  For non-contiguous input maps, the renumbered row and domain
maps are exact 0-based rank-ordered enumerations (their flattened identifier
lists equal `[0, ..., N-1]`, so identifiers are unique and the global count is
preserved), every per-rank list is a single contiguous run, and the global
counts are preserved; the renumbered column map preserves the input column map's
global count and keeps per-rank identifiers unique, but its per-rank lists are
contiguous runs only in the no-importer branch — with an importer they are the
translations of the original column identifiers, which may skip over remotely
owned values. -/
theorem c5_renumbered_maps_properties (RowMap DomainMap ColumnMap : TMap) (hasImporter : Bool)
    (hrow : RowMap.contiguous = false) (hdom : DomainMap.contiguous = false)
    (hrowsum : (RowMap.gids.map List.length).sum = RowMap.globalNum)
    (hdomsum : (DomainMap.gids.map List.length).sum = DomainMap.globalNum)
    (hcol : ∀ l ∈ ColumnMap.gids, l.Nodup ∧ ∀ g ∈ l, g ∈ DomainMap.gids.flatten) :
    ((MakeContiguousMaps RowMap DomainMap ColumnMap hasImporter).1.toMap.gids.flatten =
        (List.range RowMap.globalNum).map (fun i : ℕ => (i : ℤ)))
    ∧ (∀ l ∈ (MakeContiguousMaps RowMap DomainMap ColumnMap hasImporter).1.toMap.gids,
        isContigRun l = true)
    ∧ (MakeContiguousMaps RowMap DomainMap ColumnMap hasImporter).1.toMap.globalNum =
        RowMap.globalNum
    ∧ ((MakeContiguousMaps RowMap DomainMap ColumnMap hasImporter).2.2.toMap.gids.flatten =
        (List.range DomainMap.globalNum).map (fun i : ℕ => (i : ℤ)))
    ∧ (∀ l ∈ (MakeContiguousMaps RowMap DomainMap ColumnMap hasImporter).2.2.toMap.gids,
        isContigRun l = true)
    ∧ (MakeContiguousMaps RowMap DomainMap ColumnMap hasImporter).2.2.toMap.globalNum =
        DomainMap.globalNum
    ∧ (MakeContiguousMaps RowMap DomainMap ColumnMap hasImporter).2.1.toMap.globalNum =
        ColumnMap.globalNum
    ∧ (∀ l ∈ (MakeContiguousMaps RowMap DomainMap ColumnMap hasImporter).2.1.toMap.gids,
        l.Nodup)
    ∧ (hasImporter = false →
        ∀ l ∈ (MakeContiguousMaps RowMap DomainMap ColumnMap hasImporter).2.1.toMap.gids,
          isContigRun l = true) := by
  have hout : MakeContiguousMaps RowMap DomainMap ColumnMap hasImporter =
      (MapRef.fresh (makeUniformContigMap RowMap.globalNum (RowMap.gids.map List.length)),
        (if hasImporter then
          MapRef.fresh (makeMapFromGids ColumnMap.globalNum
            (ColumnMap.gids.map (fun l => l.map (translateGid DomainMap))))
         else
          MapRef.fresh (makeMapFromGids ColumnMap.globalNum
            (makeUniformContigMap DomainMap.globalNum (DomainMap.gids.map List.length)).gids)),
        MapRef.fresh
          (makeUniformContigMap DomainMap.globalNum (DomainMap.gids.map List.length))) := by
    unfold MakeContiguousMaps
    simp [hrow, hdom]
  rw [hout]
  have hflatr : (makeUniformContigMap RowMap.globalNum
      (RowMap.gids.map List.length)).gids.flatten =
      (List.range RowMap.globalNum).map (fun i : ℕ => (i : ℤ)) := by
    unfold makeUniformContigMap
    rw [contigGidBlocks_flatten, hrowsum]
    simp
  have hflatd : (makeUniformContigMap DomainMap.globalNum
      (DomainMap.gids.map List.length)).gids.flatten =
      (List.range DomainMap.globalNum).map (fun i : ℕ => (i : ℤ)) := by
    unfold makeUniformContigMap
    rw [contigGidBlocks_flatten, hdomsum]
    simp
  refine ⟨hflatr, ?_, rfl, hflatd, ?_, rfl, ?_, ?_, ?_⟩
  · intro l hl
    exact contigBlocks_mem_run _ 0 l hl
  · intro l hl
    exact contigBlocks_mem_run _ 0 l hl
  · split_ifs <;> rfl
  · intro l hl
    split_ifs at hl with himp
    · simp only [MapRef.toMap, makeMapFromGids, List.mem_map] at hl
      obtain ⟨l0, hl0, rfl⟩ := hl
      exact translate_map_nodup DomainMap l0 (hcol l0 hl0).1 (hcol l0 hl0).2
    · exact contigGidBlocks_mem_nodup _ 0 l hl
  · intro himp l hl
    rw [himp] at hl
    simp only [if_false, Bool.false_eq_true] at hl
    exact contigBlocks_mem_run _ 0 l hl

/-- C5 witness: on the two-rank non-contiguous example the renumbered row map's
flattened identifiers are exactly [0, 1, 2, 3] and the column map's global count
is preserved. -/
theorem c5_renumbered_maps_properties_witness :
    ((RowNC.gids.map List.length).sum = RowNC.globalNum)
    ∧ (MakeContiguousMaps RowNC DomNC ColNC true).1.toMap.gids.flatten =
        (List.range RowNC.globalNum).map (fun i : ℕ => (i : ℤ))
    ∧ (MakeContiguousMaps RowNC DomNC ColNC true).2.1.toMap.globalNum = ColNC.globalNum := by
  obtain ⟨a, _, _, _, _, _, g, _, _⟩ := c5_renumbered_maps_properties RowNC DomNC ColNC true
    rfl rfl (by decide) (by decide) (by decide)
  exact ⟨by decide, a, g⟩

/-- C6 (code_bug evaluation).  Build without PETSc, command line `--petsc
--nohypre` on one process: the Petsc block at lines 1222-1227 tests `do_hypre`
instead of `do_petsc`, so NO warning is emitted and `do_petsc` stays set —
contradicting the claim that a requested-but-not-compiled backend is disabled
with a warning.  The backend is nonetheless absent from the experiment list
(the compile guard at line 1259 excludes it), so the run proceeds without it. -/
theorem c6_petsc_missing_warning_eval :
    setup_backends cfgPetscMissing 1 reqPetscOnly = ([], [Experiments.TPETRA])
    ∧ (filter_backends cfgPetscMissing 1 reqPetscOnly).2.do_petsc = true
    ∧ Experiments.PETSC ∉ (setup_backends cfgPetscMissing 1 reqPetscOnly).2 := by
  refine ⟨by decide, by decide, by decide⟩

/-- C7 (confirmed).  The "all" model's predicted minimum time is one single
plain-stream-table lookup at the total touched bytes
`(m+1)*sizeof(rowptr) + nnz*sizeof(LO) + nnz*sizeof(SC) + n*sizeof(SC) +
m*sizeof(SC)`, with no latency term — for every byte total below 2^31 (above
that the `int` narrowing of the total wraps). -/
theorem c7_all_model_single_lookup (PM : PerfTables) (m n nnz : ℕ)
    (h : SPMV_total_bytes m n nnz < 2147483648) :
    minimum_local_all_time PM m n nnz =
      PM.stream_vector_lookup ((SPMV_total_bytes m n nnz : ℤ)) := by
  have hpos : 0 < SPMV_total_bytes m n nnz := by
    unfold SPMV_total_bytes sizeofRowptr
    omega
  have hw : wrap32 ((SPMV_total_bytes m n nnz : ℤ)) = ((SPMV_total_bytes m n nnz : ℤ)) :=
    wrap32_eq_self (by omega) (by exact_mod_cast h)
  have e5 : gb_per_sec PM m n nnz 5 =
      convert_time_to_bandwidth_gbs
        (PM.stream_vector_lookup ((SPMV_total_bytes m n nnz : ℤ))) 1
        ((SPMV_total_bytes m n nnz : ℚ)) := by
    simp [gb_per_sec, avg_time, size_in_bytes, memory_traffic, SPMV_corrected,
      SPMV_object_size, SPMV_num_objects, hw]
  have htr : ((SPMV_total_bytes m n nnz : ℚ)) ≠ 0 := by
    exact_mod_cast hpos.ne'
  unfold minimum_local_all_time
  rw [spmv_memory_bytes_total_eq, e5, div_GB_convert _ _ _ htr]
  rw [mul_comm, mul_div_assoc, div_self htr, mul_one]

/-- C7 witness: the "all" model equals the single stream lookup at the total
bytes for m = 1, n = 2, nnz = 3 on the sample tables. -/
theorem c7_all_model_single_lookup_witness :
    SPMV_total_bytes 1 2 3 < 2147483648
    ∧ minimum_local_all_time PMquad 1 2 3 =
        PMquad.stream_vector_lookup ((SPMV_total_bytes 1 2 3 : ℤ)) :=
  ⟨by decide, c7_all_model_single_lookup PMquad 1 2 3 (by decide)⟩

/-- C8, counterexample.  The claim says the driver computes the norm check and
NaN overwrite after every backend invocation, comparing the output norm against
the baseline norm for bit-identity.  But (a) with `report_error_norms` false —
the default — nothing is computed and the output vector is NOT overwritten with
NaN; and (b) when the check does run, the bit-identity printed is between the
two views of the same output vector, so it reports true even when the output
norm (4, squared) differs from the baseline norm (9, squared). -/
theorem c8_norm_check_counterexample :
    (norm_check_block true false [some 2] [some 3] = (none, [some 2]))
    ∧ (norm_check_block true true [some 2] [some 3]).1 =
        some { y_err := some 1, y_norm2 := some 4, y_baseline_norm2 := some 9,
               norms_bit_identical := true, y_norm2_next_itr := none } := by
  constructor
  · rfl
  · norm_num [norm_check_block, norm2sq, vupdate_sub, putScalarNaN, fpEq]

/-- C8 (amended).  Only when error-norm reporting is enabled (and the Tpetra
baseline available) does the block after each backend invocation run; it then
reports the 2-norm of the difference vector y − y_baseline (the baseline vector
was computed once before the loop; its norm is recomputed here), the output and
baseline norms, and whether the norms obtained through the two aliased views of
the same output vector are bit-identical — identically true for NaN-free output,
regardless of the baseline — and finally overwrites the shared output vector
with the NaN sentinel.  With reporting disabled, no check runs and no NaN is
written. -/
theorem c8_norm_check_guarded (y yb : List (Option ℚ)) (hy : ∀ x ∈ y, x ≠ none) :
    norm_check_block true true y yb =
      (some
        { y_err := norm2sq (vupdate_sub y yb)
          y_norm2 := norm2sq y
          y_baseline_norm2 := norm2sq yb
          norms_bit_identical := true
          y_norm2_next_itr := norm2sq (putScalarNaN (vupdate_sub y yb)) },
        putScalarNaN (vupdate_sub y yb))
    ∧ norm_check_block true false y yb = (none, y) := by
  constructor
  · unfold norm_check_block
    simp [fpEq_refl_of_isSome (norm2sq_isSome hy)]
  · rfl

/-- C8 witness: the guarded block's behaviour at y = [2], baseline = [3]. -/
theorem c8_norm_check_guarded_witness :
    (∀ x ∈ ([some 2] : List (Option ℚ)), x ≠ none)
    ∧ norm_check_block true true [some 2] [some 3] =
      (some
        { y_err := norm2sq (vupdate_sub [some 2] [some 3])
          y_norm2 := norm2sq [some 2]
          y_baseline_norm2 := norm2sq [some 3]
          norms_bit_identical := true
          y_norm2_next_itr := norm2sq (putScalarNaN (vupdate_sub [some 2] [some 3])) },
        putScalarNaN (vupdate_sub [some 2] [some 3])) := by
  have h := c8_norm_check_guarded [some 2] [some 3] (by simp)
  exact ⟨by simp, h.1⟩

/-- C9 (confirmed).  For send lengths s_1..s_k and receive lengths r_1..r_j
(1 ≤ j ≤ k, so the out-of-bounds read the source would otherwise perform cannot
occur), the average-message-size handed to the halo-pong lookup is
s_k*sizeof(SC)/(2k) + s_j*sizeof(SC)/(2j): both totals are assigned, not
accumulated, and the receive total reads the send-lengths array, so the receive
lengths never influence the halo-pong lookup size — replacing them by any other
list of the same length leaves it unchanged. -/
theorem c9_halo_avg_message_size (PM : PerfTables) (sL rL : List ℕ)
    (hk : 0 < sL.length) (hj : 0 < rL.length) (_hjk : rL.length ≤ sL.length) :
    avg_size_per_msg PM sL rL =
      ((sL.getD (sL.length - 1) 0 * sizeofSC : ℕ) : ℚ) / (2 * (sL.length : ℚ))
        + ((sL.getD (rL.length - 1) 0 * sizeofSC : ℕ) : ℚ) / (2 * (rL.length : ℚ))
    ∧ ∀ rL' : List ℕ, rL'.length = rL.length →
        avg_size_per_msg PM sL rL' = avg_size_per_msg PM sL rL := by
  refine ⟨avg_size_formula PM sL rL hk hj, fun rL' hlen => ?_⟩
  rw [avg_size_formula PM sL rL' hk (hlen ▸ hj), avg_size_formula PM sL rL hk hj, hlen]

/-- C9 witness: with send lengths [3, 5] and receive lengths [7], replacing the
receive lengths by [9999] leaves the halo-pong lookup size unchanged. -/
theorem c9_halo_avg_message_size_witness :
    (0 < ([3, 5] : List ℕ).length ∧ 0 < ([7] : List ℕ).length
      ∧ ([7] : List ℕ).length ≤ ([3, 5] : List ℕ).length)
    ∧ avg_size_per_msg PMquad [3, 5] [9999] = avg_size_per_msg PMquad [3, 5] [7] :=
  ⟨⟨by decide, by decide, by decide⟩,
    (c9_halo_avg_message_size PMquad [3, 5] [7] (by decide) (by decide) (by decide)).2
      [9999] (by decide)⟩

/-- C10 (confirmed).  For each of the six timers, the byte count handed to the
stream lookup is the 32-bit-wrapped `int` product `SPMV_object_size[i] *
SPMV_num_objects[i]` (see `size_in_bytes`/`wrap32`), while the memory traffic
used to derive bandwidth is the exact double product (see `memory_traffic`);
whenever the true byte volume `SPMV_total_bytes` is below 2^31 — which bounds
every per-object product — the two agree exactly. -/
theorem c10_wrapped_size_agreement (m n nnz i : ℕ)
    (h : SPMV_total_bytes m n nnz < 2147483648) :
    (size_in_bytes m n nnz i : ℚ) = memory_traffic m n nnz i := by
  have hb : (m + 1) * 8 + nnz * 4 + nnz * 8 + n * 8 + m * 8 < 2147483648 := by
    have h' := h
    unfold SPMV_total_bytes sizeofRowptr sizeofLO sizeofSC at h'
    omega
  have hw : wrap32 ((SPMV_total_bytes m n nnz : ℤ)) = ((SPMV_total_bytes m n nnz : ℤ)) :=
    wrap32_eq_self (by omega) (by exact_mod_cast h)
  by_cases h0 : i = 0
  · have w : wrap32 ((sizeofLO : ℤ) * (nnz : ℤ)) = (sizeofLO : ℤ) * (nnz : ℤ) :=
      wrap32_eq_self (mul_nonneg (by omega) (by omega)) (by norm_num [sizeofLO]; omega)
    subst h0
    simp only [size_in_bytes, memory_traffic, SPMV_object_size, SPMV_num_objects, reduceIte]
    rw [w]
    push_cast
    ring
  by_cases h1 : i = 1
  · have w : wrap32 ((sizeofRowptr : ℤ) * ((m : ℤ) + 1)) = (sizeofRowptr : ℤ) * ((m : ℤ) + 1) :=
      wrap32_eq_self (mul_nonneg (by omega) (by omega)) (by norm_num [sizeofRowptr]; omega)
    subst h1
    simp only [size_in_bytes, memory_traffic, SPMV_object_size, SPMV_num_objects, reduceIte,
      h0]
    rw [w]
    push_cast
    ring
  by_cases h2 : i = 2
  · have w : wrap32 ((sizeofSC : ℤ) * (nnz : ℤ)) = (sizeofSC : ℤ) * (nnz : ℤ) :=
      wrap32_eq_self (mul_nonneg (by omega) (by omega)) (by norm_num [sizeofSC]; omega)
    subst h2
    simp only [size_in_bytes, memory_traffic, SPMV_object_size, SPMV_num_objects, reduceIte,
      h0, h1]
    rw [w]
    push_cast
    ring
  by_cases h3 : i = 3
  · have w : wrap32 ((sizeofSC : ℤ) * (n : ℤ)) = (sizeofSC : ℤ) * (n : ℤ) :=
      wrap32_eq_self (mul_nonneg (by omega) (by omega)) (by norm_num [sizeofSC]; omega)
    subst h3
    simp only [size_in_bytes, memory_traffic, SPMV_object_size, SPMV_num_objects, reduceIte,
      h0, h1, h2]
    rw [w]
    push_cast
    ring
  by_cases h4 : i = 4
  · have w : wrap32 ((sizeofSC : ℤ) * (m : ℤ)) = (sizeofSC : ℤ) * (m : ℤ) :=
      wrap32_eq_self (mul_nonneg (by omega) (by omega)) (by norm_num [sizeofSC]; omega)
    subst h4
    simp only [size_in_bytes, memory_traffic, SPMV_object_size, SPMV_num_objects, reduceIte,
      h0, h1, h2, h3]
    rw [w]
    push_cast
    ring
  by_cases h5 : i = 5
  · subst h5
    simp only [size_in_bytes, memory_traffic, SPMV_object_size, SPMV_num_objects, reduceIte,
      h0, h1, h2, h3, h4]
    norm_num [hw]
  · simp only [size_in_bytes, memory_traffic, SPMV_object_size, SPMV_num_objects,
      h0, h1, h2, h3, h4, h5, if_false]
    norm_num [wrap32]

/-- C10 witness: wrapped and exact byte counts agree for timer 0 at
m = 1, n = 2, nnz = 3. -/
theorem c10_wrapped_size_agreement_witness :
    SPMV_total_bytes 1 2 3 < 2147483648
    ∧ (size_in_bytes 1 2 3 0 : ℚ) = memory_traffic 1 2 3 0 :=
  ⟨by decide, c10_wrapped_size_agreement 1 2 3 0 (by decide)⟩

end MatvecDriver
